import Mathlib

/-!
Verification of the process-lifecycle and environment-staging subsystem of
the PyInstaller bootloader (`src/bootloader/src/pyi_utils.c`).

The C code is shallowly embedded: the process environment is a partial map
from variable names to string values, the C heap (where it matters for
aliasing claims) is a list of strings addressed by index, filesystem and
OS primitives (`mkdtemp`, `_wtempnam`, `_wmkdir`, `ExpandEnvironmentStringsW`)
are oracle parameters, and platform-conditional code is embedded once per
relevant platform branch.
-/

namespace PyiUtils

/-- The process environment: a partial map from variable names to values.
`none` models an unset variable, `some ""` a variable set to the empty
string (the two states the code deliberately conflates). -/
def PEnv : Type := String → Option String

/-- `pyi_getenv` (pyi_utils.c:137-185, POSIX branch, value level):
`env = getenv(variable); return (env && env[0]) ? strdup(env) : NULL;`.
At the value level `strdup` is the identity; the aliasing content of
`strdup` is modelled separately by `pyi_getenv_heap`. -/
def pyi_getenv (env : PEnv) (var : String) : Option String :=
  match env var with
  | some s => if s = "" then none else some s
  | none => none

/-- `pyi_setenv` (pyi_utils.c:188-209, POSIX branch):
`setenv(variable, value, true)` — set with overwrite. -/
def pyi_setenv (env : PEnv) (var : String) (value : String) : PEnv :=
  fun k => if k = var then some value else env k

/-- `pyi_unsetenv` (pyi_utils.c:212-230, `HAVE_UNSETENV` branch):
`unsetenv(variable)`. -/
def pyi_unsetenv (env : PEnv) (var : String) : PEnv :=
  fun k => if k = var then none else env k

/-- `pyi_strjoin` (pyi_utils.c:106-134). A `NULL` argument is modelled as
`none`; `first ? strlen(first) : 0` is the length of `o.getD ""`. The
three guarded `strcat`s are the three guarded appends. -/
def pyi_strjoin (first sep second : Option String) : String :=
  let first_len := (first.getD "").length
  let sep_len := (sep.getD "").length
  let second_len := (second.getD "").length
  (if first_len ≠ 0 then first.getD "" else "")
    ++ (if sep_len ≠ 0 ∧ first_len ≠ 0 ∧ second_len ≠ 0 then sep.getD "" else "")
    ++ (if second_len ≠ 0 then second.getD "" else "")

/-- `set_dynamic_library_path` (pyi_utils.c:741-775). The pair of variable
names is `("LD_LIBRARY_PATH", "LD_LIBRARY_PATH_ORIG")` on most *nix
platforms and `("LIBPATH", "LIBPATH_ORIG")` on AIX; the function is
embedded once, parameterized by that platform-selected pair. -/
def set_dynamic_library_path (env_var env_var_orig : String) (env : PEnv)
    (path : String) : PEnv :=
  let orig_path := pyi_getenv env env_var
  let env2 := match orig_path with
    | some op => pyi_setenv env env_var_orig op
    | none => env
  let new_path := pyi_strjoin (some path) (some ":") orig_path
  pyi_setenv env2 env_var new_path

/-! ### Heap-level model of `pyi_getenv` (for the `strdup` freshness claim) -/

/-- A C heap holding string values; a "char pointer" is an index. Reading an
out-of-range pointer yields `""` (never happens under `envWF`). -/
def heapGet (h : List String) (p : Nat) : String := h.getD p ""

/-- Well-formedness: every pointer stored in the environment points into
the heap. -/
def envWF (h : List String) (e : String → Option Nat) : Prop :=
  ∀ w q, e w = some q → q < h.length

/-- `pyi_getenv` (pyi_utils.c:137-185, POSIX branch) at the heap level.
`getenv` returns a pointer into the live environment (aliased!);
`(env && env[0]) ? strdup(env) : NULL` allocates a fresh copy at the end
of the heap and returns the fresh pointer, or `NULL` (`none`). -/
def pyi_getenv_heap (h : List String) (e : String → Option Nat) (var : String) :
    List String × Option Nat :=
  match e var with
  | none => (h, none)
  | some p =>
    if heapGet h p = "" then (h, none)
    else (h ++ [heapGet h p], some h.length)

/-! ### Windows branch of `pyi_getenv` (environment-reference expansion) -/

/-- `pyi_getenv` (pyi_utils.c:142-163 and 184, `_WIN32` branch).
`GetEnvironmentVariableW` writes the raw value into `buf1` and returns its
length (`0` for an unset or empty variable); `ExpandEnvironmentStringsW`
writes the expansion of `buf1` into `buf2`; wide/UTF-8 conversions are the
identity at this level. The source then executes `wenv = buf1;` inside the
`rc > 0` branch of the expansion — `buf2` is never read again — and finally
returns `(env && env[0]) ? strdup(env) : NULL`. -/
def pyi_getenv_win32 (expandEnvStrings : String → String) (env : PEnv)
    (var : String) : Option String :=
  let buf1 := (env var).getD ""
  let rc := buf1.length
  let wenv : Option String := none
  let wenv := if rc > 0 then
      let buf2 := expandEnvStrings buf1
      let rc2 := buf2.length
      if rc2 > 0 then some buf1 else some buf1
    else wenv
  match wenv with
  | some w => if w = "" then none else some w
  | none => none

/-! ### Exit-status translation of `pyi_utils_create_child` (POSIX) -/

/-- `WIFEXITED(s)`: `(s & 0x7f) == 0` (glibc wait-status encoding). -/
def WIFEXITED (s : Nat) : Bool := s % 128 == 0

/-- `WEXITSTATUS(s)`: `(s >> 8) & 0xff`. -/
def WEXITSTATUS (s : Nat) : Nat := (s / 256) % 256

/-- `WIFSIGNALED(s)`: `(((s & 0x7f) + 1) >> 1) > 0`. -/
def WIFSIGNALED (s : Nat) : Bool := ((s % 128) + 1) / 2 > 0

/-- `WTERMSIG(s)`: `s & 0x7f`. -/
def WTERMSIG (s : Nat) : Nat := s % 128

/-- The parent's observable termination behavior. -/
inductive ExitAction where
  | exitCode : Nat → ExitAction
  | raiseSignal : Nat → ExitAction
deriving DecidableEq

/-- Tail of `pyi_utils_create_child` (pyi_utils.c:990-1009): `wait_rc < 0`
(wait failed, or the `cleanup` label was reached without waiting) returns
`1`; a normal child exit returns `WEXITSTATUS(rc)`; a signalled child makes
the parent `raise(WTERMSIG(rc))` (with dispositions already restored to the
default, so the parent terminates by that same signal). -/
def exit_translation (wait_rc : Int) (rc : Nat) : ExitAction :=
  if wait_rc < 0 then ExitAction.exitCode 1
  else if WIFEXITED rc then ExitAction.exitCode (WEXITSTATUS rc)
  else if WIFSIGNALED rc then ExitAction.raiseSignal (WTERMSIG rc)
  else ExitAction.exitCode 1

/-- How `pyi_utils_create_child` reached its exit-translation code:
`forkFailed` is the early failure path (`fork() < 0` jumps to `cleanup`
with `wait_rc` still `-1` and `rc` still `0`); `waited wait_rc rc` records
the `waitpid` result. -/
inductive SpawnOutcome where
  | forkFailed : SpawnOutcome
  | waited : Int → Nat → SpawnOutcome

/-- The exit behavior of `pyi_utils_create_child` (pyi_utils.c:879-1010)
as a function of how the spawn/wait went. -/
def pyi_utils_create_child_exit : SpawnOutcome → ExitAction
  | SpawnOutcome.forkFailed => exit_translation (-1) 0
  | SpawnOutcome.waited w rc => exit_translation w rc

/-! ### Signal handling during the wait (POSIX) -/

/-- `SIGCHLD` (Linux numbering, as in `signal(7)` cited by the source). -/
def SIGCHLD : Nat := 17

/-- `#define SIGCLD SIGCHLD` (pyi_utils.c:47-49). -/
def SIGCLD : Nat := SIGCHLD

/-- A signal disposition: platform default, or one of the two handlers the
bootloader installs. -/
inductive HandlerKind where
  | dfl : HandlerKind
  | ignoring : HandlerKind
  | forwarding : HandlerKind
deriving DecidableEq

/-- `signal(s, h)`: update one disposition in the table. -/
def updateDisp (d : Nat → HandlerKind) (s : Nat) (h : HandlerKind) :
    Nat → HandlerKind :=
  fun t => if t = s then h else d t

/-- The install loop (pyi_utils.c:953-959): for `signum` in `0..64`
(`num_signals = 65`), `if (signum != SIGCHLD && signum != SIGCLD)
signal(signum, handler)`. -/
def installSignalHandlers (h : HandlerKind) (d : Nat → HandlerKind) :
    Nat → HandlerKind :=
  (List.range 65).foldl
    (fun d signum =>
      if signum ≠ SIGCHLD ∧ signum ≠ SIGCLD then updateDisp d signum h else d)
    d

/-- The restore loop (pyi_utils.c:979-981): for `signum` in `0..64`,
`signal(signum, SIG_DFL)`. -/
def restoreSignalHandlers (d : Nat → HandlerKind) : Nat → HandlerKind :=
  (List.range 65).foldl (fun d signum => updateDisp d signum HandlerKind.dfl) d

/-- `_ignoring_signal_handler` (pyi_utils.c:862-866): logs and performs no
signal send. The result is the list of `kill(pid, signum)` calls made. -/
def _ignoring_signal_handler (_signum : Nat) : List (Nat × Nat) := []

/-- `_signal_handler` (pyi_utils.c:868-873): `kill(child_pid, signum)`. -/
def _signal_handler (child_pid : Nat) (signum : Nat) : List (Nat × Nat) :=
  [(child_pid, signum)]

/-- Handler selection (pyi_utils.c:944-945): `ignore_signals` is the
presence of the `"pyi-bootloader-ignore-signals"` option; `handler =
ignore_signals ? &_ignoring_signal_handler : &_signal_handler`. -/
def chooseHandler (ignore_signals : Bool) : HandlerKind :=
  if ignore_signals then HandlerKind.ignoring else HandlerKind.forwarding

/-- Behavior of a received signal under a disposition: the list of
`kill` calls performed. The default disposition runs no bootloader code. -/
def runHandler (child_pid : Nat) : HandlerKind → Nat → List (Nat × Nat)
  | HandlerKind.ignoring, s => _ignoring_signal_handler s
  | HandlerKind.forwarding, s => _signal_handler child_pid s
  | HandlerKind.dfl, _ => []

/-! ### Argument filtering at spawn time -/

/-- The `argv_pyi` construction loop (pyi_utils.c:898-913, `__APPLE__ &&
WINDOWED` variant): an argument with `strstr(argv[i], "-psn") == argv[i]`
(i.e. `"-psn"` at offset 0) is skipped, every other argument is duplicated
into the child's vector in order. -/
def filter_argv : List String → List String
  | [] => []
  | a :: r => if a.startsWith "-psn" then filter_argv r else a :: filter_argv r

/-! ### Recursive removal of the scratch directory (POSIX) -/

/-- One slot of a directory listing as `readdir` presents it: the `"."` and
`".."` pseudo-entries, an entry whose `stat` fails because it vanished
between listing and deletion (`ghost`), a regular file, or a subdirectory
together with its own listing. -/
inductive Ent where
  | dot : Ent
  | dotdot : Ent
  | ghost : String → Ent
  | file : String → Ent
  | dir : String → List Ent → Ent

/-- A filesystem deletion call performed during the traversal. -/
inductive Act where
  | unlink : String → Act
  | rmdir : String → Act
deriving DecidableEq

/-- The path a deletion call targets. -/
def actPath : Act → String
  | Act.unlink p => p
  | Act.rmdir p => p

/-- pyi_utils.c:485-487 (and 459-460): append the path separator to the
directory name unless it already ends in one. -/
def withSep (d : String) : String := if d.endsWith "/" then d else d ++ "/"

mutual

/-- `remove_one` (pyi_utils.c:451-471): skip `"."`/`".."`; skip an entry
whose `stat` fails; `unlink` a file; recurse (via `pyi_remove_temp_path`'s
body, `removeEntries` + trailing `rmdir`) into a subdirectory. `pfx` is the
parent directory name with trailing separator (`pnm[..pos]`); the entry's
full path is `pfx ++ name`. Result: the deletion calls performed. -/
def remove_one (pfx : String) : Ent → List Act
  | Ent.dot => []
  | Ent.dotdot => []
  | Ent.ghost _ => []
  | Ent.file n => [Act.unlink (pfx ++ n)]
  | Ent.dir n es =>
    removeEntries (withSep (pfx ++ n)) es ++ [Act.rmdir (pfx ++ n)]

/-- The `readdir` loop of `pyi_remove_temp_path` (pyi_utils.c:492-495):
process each listed entry with `remove_one` in listing order. -/
def removeEntries (pfx : String) : List Ent → List Act
  | [] => []
  | e :: r => remove_one pfx e ++ removeEntries pfx r

end

/-- `pyi_remove_temp_path` (pyi_utils.c:473-498): process every entry of
the listing of `d`, then `rmdir(d)`. -/
def pyi_remove_temp_path (d : String) (es : List Ent) : List Act :=
  removeEntries (withSep d) es ++ [Act.rmdir d]

mutual

/-- Data-model observer: the real contents of one listing slot, as full
paths, children of a directory listed before the directory itself.
Pseudo-entries and vanished entries contribute no real content. -/
def entPaths (pfx : String) : Ent → List String
  | Ent.dot => []
  | Ent.dotdot => []
  | Ent.ghost _ => []
  | Ent.file n => [pfx ++ n]
  | Ent.dir n es => entsPaths (withSep (pfx ++ n)) es ++ [pfx ++ n]

/-- Data-model observer: real contents of a whole listing, in order. -/
def entsPaths (pfx : String) : List Ent → List String
  | [] => []
  | e :: r => entPaths pfx e ++ entsPaths pfx r

end

/-! ### Scratch-directory creation (POSIX) -/

/-- `pyi_test_temp_path` (pyi_utils.c:306-322): append a separator if the
candidate does not end in one, append the `"_MEIXXXXXX"` template, and call
`mkdtemp`. The `mkdtemp` oracle returns the created directory name
(`mkdtemp` rewrites the template in `buff`), or `none` on failure. -/
def pyi_test_temp_path (mk : String → Option String) (buff : String) :
    Option String :=
  mk (withSep buff ++ "_MEIXXXXXX")

/-- `envname` (pyi_utils.c:333-335): environment variables probed, in
order. -/
def tmp_env_names : List String := ["TMPDIR", "TEMP", "TMP"]

/-- `dirname` (pyi_utils.c:337-339): fallback directories probed, in
order. -/
def tmp_dir_names : List String := ["/tmp", "/var/tmp", "/usr/tmp"]

/-- The environment-variable probe loop (pyi_utils.c:343-353): for each
name, `p = pyi_getenv(name)`; if set (and nonempty), test it; first
success wins. -/
def probeEnvList (env : PEnv) (mk : String → Option String) :
    List String → Option String
  | [] => none
  | n :: r =>
    match pyi_getenv env n with
    | some p =>
      match pyi_test_temp_path mk p with
      | some b => some b
      | none => probeEnvList env mk r
    | none => probeEnvList env mk r

/-- The fallback-directory probe loop (pyi_utils.c:355-361). -/
def probeDirList (mk : String → Option String) : List String → Option String
  | [] => none
  | d :: r =>
    match pyi_test_temp_path mk d with
    | some b => some b
    | none => probeDirList mk r

/-- `pyi_get_temp_path` (pyi_utils.c:325-364, POSIX branch): with a
runtime-tmpdir override, test only it; otherwise probe the environment
variables, then the fallback directories. -/
def pyi_get_temp_path (env : PEnv) (mk : String → Option String)
    (runtime_tmpdir : Option String) : Option String :=
  match runtime_tmpdir with
  | some rt => pyi_test_temp_path mk rt
  | none =>
    match probeEnvList env mk tmp_env_names with
    | some b => some b
    | none => probeDirList mk tmp_dir_names

/-! ### Scratch-directory creation (Windows) -/

/-- Restore code repeated on both return paths (pyi_utils.c:274-284 and
289-299): if the original `TMP` was captured, set it back, else unset
`TMP`. -/
def restoreTMP (original_tmpdir : Option String) (env : PEnv) : PEnv :=
  match original_tmpdir with
  | some v => pyi_setenv env "TMP" v
  | none => pyi_unsetenv env "TMP"

/-- The retry loop (pyi_utils.c:267-288): up to `fuel` iterations starting
at attempt index `i`; per attempt, `_wtempnam` proposes a name and
`_wmkdir` tries to create it; the first created name is returned. -/
def win32_attempt_loop (tn : Nat → String) (ok : String → Bool) :
    Nat → Nat → Option String
  | _, 0 => none
  | i, Nat.succ k =>
    let nm := tn i
    if ok nm then some nm else win32_attempt_loop tn ok (i + 1) k

/-- `pyi_get_temp_path` (pyi_utils.c:235-301, `_WIN32` branch). With an
override: capture `TMP` via `pyi_getenv`, set `TMP` to the override's
absolute path (`pyi_path_fullpath` is the oracle `fullpath`), run the
5-attempt loop (name proposals `tn` read the ambient environment, as
`GetTempPathW`/`_wtempnam` do), and on both the success and the exhaustion
path restore `TMP`. Without an override the environment is never written.
Returns the created directory (or `none`) and the final environment. -/
def pyi_get_temp_path_w (env : PEnv) (fullpath : String → String)
    (tn : PEnv → Nat → String) (ok : String → Bool)
    (runtime_tmpdir : Option String) : Option String × PEnv :=
  match runtime_tmpdir with
  | none => (win32_attempt_loop (tn env) ok 0 5, env)
  | some r =>
    let original_tmpdir := pyi_getenv env "TMP"
    let env1 := pyi_setenv env "TMP" (fullpath r)
    (win32_attempt_loop (tn env1) ok 0 5, restoreTMP original_tmpdir env1)

/-! ### `pyi_create_temp_path` -/

/-- The fields of `ARCHIVE_STATUS` this subsystem reads and writes, plus
the option-lookup collaborator. -/
structure ArchiveStatus where
  has_temp_directory : Bool
  temppath : String
  homepath : String
  options : String → Option String

/-- `pyi_arch_get_option` collaborator (external archive module). -/
def pyi_arch_get_option (st : ArchiveStatus) (key : String) : Option String :=
  st.options key

/-- `pyi_create_temp_path` (pyi_utils.c:372-391): a no-op returning `0`
when `has_temp_directory` is already set; otherwise look up
`"pyi-runtime-tmpdir"`, call `pyi_get_temp_path`, return `-1` on failure
(`FATALERROR`), or record the created path and set the flag. -/
def pyi_create_temp_path (env : PEnv) (mk : String → Option String)
    (st : ArchiveStatus) : Int × ArchiveStatus :=
  if st.has_temp_directory ≠ true then
    let runtime_tmpdir := pyi_arch_get_option st "pyi-runtime-tmpdir"
    match pyi_get_temp_path env mk runtime_tmpdir with
    | none => (-1, st)
    | some p => (0, { st with temppath := p, has_temp_directory := true })
  else (0, st)

/-! ## Theorems -/

/-- C1: `pyi_utils_create_child` translates the child's termination status
exactly: a failed wait (including the early fork-failure path, where
`wait_rc` is still `-1`) yields exit code 1; a normal child exit with code
`N` yields exit code exactly `N`; a child terminated by signal `S` makes
the parent re-raise `S` against itself instead of returning a numeric
wrapper code. -/
theorem create_child_exit_translation :
    ∀ (w : Int) (rc N S : Nat),
      (pyi_utils_create_child_exit SpawnOutcome.forkFailed = ExitAction.exitCode 1)
      ∧ (w < 0 → exit_translation w rc = ExitAction.exitCode 1)
      ∧ (0 ≤ w → WIFEXITED rc = true → WEXITSTATUS rc = N →
          exit_translation w rc = ExitAction.exitCode N)
      ∧ (0 ≤ w → WIFSIGNALED rc = true → WTERMSIG rc = S →
          exit_translation w rc = ExitAction.raiseSignal S) := by
  intro w rc N S
  refine ⟨by decide, ?_, ?_, ?_⟩
  · intro hw
    simp [exit_translation, hw]
  · intro hw h1 h2
    have hnw : ¬ w < 0 := by omega
    simp [exit_translation, hnw, h1, h2]
  · intro hw h1 h2
    have hne : rc % 128 ≠ 0 := by
      intro h0
      simp [WIFSIGNALED, h0] at h1
    have hex : WIFEXITED rc = false := by
      simp [WIFEXITED, hne]
    have hnw : ¬ w < 0 := by omega
    simp [exit_translation, hnw, hex, h1, h2]

/-- Witness for C1: a wait status of `7 << 8 = 1792` is a normal exit with
code 7 and translates to exit code 7; a wait status of `9` is termination
by signal 9 and translates to re-raising signal 9. -/
theorem create_child_exit_translation_w :
    ((0 : Int) ≤ 0 ∧ WIFEXITED 1792 = true ∧ WEXITSTATUS 1792 = 7
      ∧ exit_translation 0 1792 = ExitAction.exitCode 7)
    ∧ (WIFSIGNALED 9 = true ∧ WTERMSIG 9 = 9
      ∧ exit_translation 0 9 = ExitAction.raiseSignal 9) := by
  have H1 := create_child_exit_translation 0 1792 7 7
  have H2 := create_child_exit_translation 0 9 7 9
  exact ⟨⟨by decide, by decide, by decide,
      H1.2.2.1 (by decide) (by decide) (by decide)⟩,
    ⟨by decide, by decide,
      H2.2.2.2 (by decide) (by decide) (by decide)⟩⟩

/-- C3: `pyi_getenv` returns the absent result both for an unset variable
and for one set to the empty string; when it returns a value, the value is
a freshly allocated copy: the returned pointer differs from every pointer
stored in the environment, its content equals the variable's value, and
mutating the heap at the returned pointer changes no value seen through
the environment. -/
theorem pyi_getenv_copy_spec :
    ∀ (h : List String) (e : String → Option Nat) (v : String),
      envWF h e →
      (((pyi_getenv_heap h e v).2 = none ↔
          (e v = none ∨ ∃ p, e v = some p ∧ heapGet h p = ""))
      ∧ (∀ q, (pyi_getenv_heap h e v).2 = some q →
          (∀ w r, e w = some r → r ≠ q)
          ∧ (∀ p, e v = some p →
              heapGet (pyi_getenv_heap h e v).1 q = heapGet h p)
          ∧ (∀ h2, (∀ i, i ≠ q → heapGet h2 i = heapGet (pyi_getenv_heap h e v).1 i) →
              ∀ w r, e w = some r → heapGet h2 r = heapGet h r))) := by
  intro h e v hwf
  rcases hv : e v with _ | p
  · refine ⟨by simp [pyi_getenv_heap, hv], ?_⟩
    intro q hq
    simp [pyi_getenv_heap, hv] at hq
  · by_cases hemp : heapGet h p = ""
    · refine ⟨by simp [pyi_getenv_heap, hv, hemp], ?_⟩
      intro q hq
      simp [pyi_getenv_heap, hv, hemp] at hq
    · have hres : pyi_getenv_heap h e v = (h ++ [heapGet h p], some h.length) := by
        simp [pyi_getenv_heap, hv, hemp]
      refine ⟨by rw [hres]; simp [hv, hemp], ?_⟩
      intro q hq
      rw [hres] at hq
      have hql : h.length = q := by
        simpa using hq
      subst hql
      refine ⟨?_, ?_, ?_⟩
      · intro w r hr
        have := hwf w r hr
        omega
      · intro p2 hp2
        have hpp : p = p2 := by
          injection hp2
        subst hpp
        rw [hres]
        simp only [heapGet]
        rw [List.getD_append_right h [h.getD p ""] "" h.length (le_refl _)]
        simp
      · intro h2 hagree w r hr
        have hrlt : r < h.length := hwf w r hr
        have hrne : r ≠ h.length := by omega
        rw [hagree r hrne, hres]
        simp only [heapGet]
        exact List.getD_append h [heapGet h p] "" r hrlt

/-- Witness for C3: a two-variable environment over the heap `["x", ""]`;
the variable bound to the empty string reads as absent, and the fresh-copy
properties hold for the nonempty one. -/
theorem pyi_getenv_copy_spec_w :
    envWF ["x", ""] (fun v => if v = "A" then some 0 else if v = "B" then some 1 else none)
    ∧ (pyi_getenv_heap ["x", ""]
        (fun v => if v = "A" then some 0 else if v = "B" then some 1 else none) "B").2 = none
    ∧ (pyi_getenv_heap ["x", ""]
        (fun v => if v = "A" then some 0 else if v = "B" then some 1 else none) "A").2 = some 2 := by
  have hwf : envWF ["x", ""]
      (fun v => if v = "A" then some 0 else if v = "B" then some 1 else none) := by
    intro w q hq
    show q < 2
    by_cases h1 : w = "A"
    · simp [h1] at hq
      omega
    · by_cases h2 : w = "B"
      · simp [h1, h2] at hq
        omega
      · simp [h1, h2] at hq
  have H := pyi_getenv_copy_spec ["x", ""]
    (fun v => if v = "A" then some 0 else if v = "B" then some 1 else none) "B" hwf
  refine ⟨hwf, ?_, by simp [pyi_getenv_heap, heapGet]⟩
  exact (H.1).mpr (Or.inr ⟨1, by simp, by simp [heapGet]⟩)

/-- A string has length zero exactly when it is empty. -/
theorem str_length_zero_iff (s : String) : s.length = 0 ↔ s = "" := by
  constructor
  · intro h
    apply String.ext
    have hd : s.data.length = 0 := h
    simpa using List.length_eq_zero.mp hd
  · intro h
    subst h
    rfl

/-- An environment in which the search-path variable is present but empty
and the shadow variable is unset. -/
def cexEnv : PEnv := fun k => if k = "LD_LIBRARY_PATH" then some "" else none

/-- Counterexample to C2 as stated: with `LD_LIBRARY_PATH` present with
value `V = ""`, staging leaves the shadow variable unset (`pyi_getenv`
collapses the empty value to `NULL`, so the copy into the shadow variable
is skipped), so the shadow does not hold `V`. -/
theorem set_dynamic_library_path_cex :
    cexEnv "LD_LIBRARY_PATH" = some ""
    ∧ (set_dynamic_library_path "LD_LIBRARY_PATH" "LD_LIBRARY_PATH_ORIG"
        cexEnv "/x") "LD_LIBRARY_PATH_ORIG" = none
    ∧ (set_dynamic_library_path "LD_LIBRARY_PATH" "LD_LIBRARY_PATH_ORIG"
        cexEnv "/x") "LD_LIBRARY_PATH_ORIG" ≠ some "" := by
  refine ⟨by simp [cexEnv], ?_, ?_⟩ <;>
    simp [set_dynamic_library_path, pyi_getenv, pyi_setenv, pyi_strjoin, cexEnv]

/-- C2 (amended): after `set_dynamic_library_path(path)` with a nonempty
`path`, the search-path variable holds `path`, the separator, then the
prior value `V` when `V` was present and nonempty — and just `path` when
`V` was absent or empty; the shadow variable holds exactly `V` when `V`
was present and nonempty, and is left untouched (not created) when `V` was
absent or empty. -/
theorem set_dynamic_library_path_spec :
    ∀ (ev evo : String) (env : PEnv) (path : String),
      ev ≠ evo → path ≠ "" →
      ((∀ V, env ev = some V → V ≠ "" →
          (set_dynamic_library_path ev evo env path) ev = some (path ++ ":" ++ V)
          ∧ (set_dynamic_library_path ev evo env path) evo = some V)
      ∧ ((env ev = none ∨ env ev = some "") →
          (set_dynamic_library_path ev evo env path) ev = some path
          ∧ (set_dynamic_library_path ev evo env path) evo = env evo)) := by
  intro ev evo env path hne hpath
  have hsep : (":" : String).length ≠ 0 := by decide
  have hpl : path.length ≠ 0 := fun h => hpath ((str_length_zero_iff path).mp h)
  constructor
  · intro V hV hVne
    have hVl : V.length ≠ 0 := fun h => hVne ((str_length_zero_iff V).mp h)
    have hget : pyi_getenv env ev = some V := by
      simp [pyi_getenv, hV, hVne]
    have hjoin : pyi_strjoin (some path) (some ":") (some V) = path ++ ":" ++ V := by
      simp [pyi_strjoin, hpl, hVl, hsep]
    constructor
    · simp [set_dynamic_library_path, hget, hjoin, pyi_setenv]
    · simp [set_dynamic_library_path, hget, pyi_setenv, Ne.symm hne]
  · intro hV
    have hget : pyi_getenv env ev = none := by
      rcases hV with hV | hV <;> simp [pyi_getenv, hV]
    have hjoin : pyi_strjoin (some path) (some ":") none = path := by
      simp [pyi_strjoin, hpl]
    constructor
    · simp [set_dynamic_library_path, hget, hjoin, pyi_setenv]
    · simp [set_dynamic_library_path, hget, pyi_setenv, Ne.symm hne]

/-- An environment with a nonempty prior search path. -/
def wEnv : PEnv := fun k => if k = "LD_LIBRARY_PATH" then some "/usr/lib" else none

/-- Witness for the amended C2: with prior value `"/usr/lib"`, staging
`"/scratch"` yields `"/scratch:/usr/lib"` and the shadow holds
`"/usr/lib"`. -/
theorem set_dynamic_library_path_spec_w :
    ("LD_LIBRARY_PATH" : String) ≠ "LD_LIBRARY_PATH_ORIG"
    ∧ ("/scratch" : String) ≠ ""
    ∧ wEnv "LD_LIBRARY_PATH" = some "/usr/lib"
    ∧ (set_dynamic_library_path "LD_LIBRARY_PATH" "LD_LIBRARY_PATH_ORIG"
        wEnv "/scratch") "LD_LIBRARY_PATH" = some ("/scratch" ++ ":" ++ "/usr/lib")
    ∧ (set_dynamic_library_path "LD_LIBRARY_PATH" "LD_LIBRARY_PATH_ORIG"
        wEnv "/scratch") "LD_LIBRARY_PATH_ORIG" = some "/usr/lib" := by
  have H := set_dynamic_library_path_spec "LD_LIBRARY_PATH" "LD_LIBRARY_PATH_ORIG"
    wEnv "/scratch" (by decide) (by decide)
  have hv : wEnv "LD_LIBRARY_PATH" = some "/usr/lib" := by simp [wEnv]
  exact ⟨by decide, by decide, hv,
    (H.1 "/usr/lib" hv (by decide)).1, (H.1 "/usr/lib" hv (by decide)).2⟩

/-- An expansion oracle mapping the reference sequence `"%FOO%"` to
`"bar"`. -/
def expandEx : String → String := fun s => if s = "%FOO%" then "bar" else s

/-- An environment whose variable `X` stores a value containing an
embedded reference sequence. -/
def envEx : PEnv := fun k => if k = "X" then some "%FOO%" else none

/-- Evidence for the C4 code bug: on the wide-character platform the
stored value `"%FOO%"` expands to `"bar"`, but `pyi_getenv` returns the
unexpanded `"%FOO%"`: the expansion written to `buf2` is discarded because
the source reassigns `wenv = buf1` instead of `buf2`, contradicting the
source's own comment "Expand environment variables like %VAR% in
value.". -/
theorem pyi_getenv_win32_discards_expansion :
    pyi_getenv_win32 expandEx envEx "X" = some "%FOO%"
    ∧ expandEx ((envEx "X").getD "") = "bar"
    ∧ pyi_getenv_win32 expandEx envEx "X" ≠ some (expandEx ((envEx "X").getD "")) := by
  refine ⟨by decide, by decide, by decide⟩

mutual

/-- The deletion calls of `remove_one` target exactly the real contents of
the entry, children before their directory. -/
theorem remove_one_paths (pfx : String) (e : Ent) :
    (remove_one pfx e).map actPath = entPaths pfx e := by
  cases e with
  | dot => simp [remove_one, entPaths]
  | dotdot => simp [remove_one, entPaths]
  | ghost n => simp [remove_one, entPaths]
  | file n => simp [remove_one, entPaths, actPath]
  | dir n es =>
    simp [remove_one, entPaths, actPath,
      removeEntries_paths (withSep (pfx ++ n)) es]

/-- The deletion calls of the listing loop target exactly the real
contents of the listing, in listing order. -/
theorem removeEntries_paths (pfx : String) (es : List Ent) :
    (removeEntries pfx es).map actPath = entsPaths pfx es := by
  cases es with
  | nil => simp [removeEntries, entsPaths]
  | cons e r =>
    simp [removeEntries, entsPaths, remove_one_paths pfx e,
      removeEntries_paths pfx r]

end

/-- A vanished entry (failed `stat`) contributes nothing and does not
disturb the processing of its siblings. -/
theorem removeEntries_ghost_skip (pfx g : String) (l1 l2 : List Ent) :
    removeEntries pfx (l1 ++ Ent.ghost g :: l2) = removeEntries pfx (l1 ++ l2) := by
  induction l1 with
  | nil => simp [removeEntries, remove_one]
  | cons e r ih => simp [removeEntries, ih]

/-- The `"."` pseudo-entry is skipped without disturbing its siblings. -/
theorem removeEntries_dot_skip (pfx : String) (l1 l2 : List Ent) :
    removeEntries pfx (l1 ++ Ent.dot :: l2) = removeEntries pfx (l1 ++ l2) := by
  induction l1 with
  | nil => simp [removeEntries, remove_one]
  | cons e r ih => simp [removeEntries, ih]

/-- The `".."` pseudo-entry is skipped without disturbing its siblings. -/
theorem removeEntries_dotdot_skip (pfx : String) (l1 l2 : List Ent) :
    removeEntries pfx (l1 ++ Ent.dotdot :: l2) = removeEntries pfx (l1 ++ l2) := by
  induction l1 with
  | nil => simp [removeEntries, remove_one]
  | cons e r ih => simp [removeEntries, ih]

/-- C5: `pyi_remove_temp_path` deletes exactly the real entries of the
tree rooted at `d` — children of each directory before the directory
itself (depth-first) — and finally the root, which is deleted last;
`"."`/`".."` pseudo-entries are skipped, and an entry that vanished
between listing and deletion (failed `stat`) is skipped without aborting
the traversal of its siblings. -/
theorem pyi_remove_temp_path_spec :
    ∀ (d : String) (es : List Ent),
      ((pyi_remove_temp_path d es).map actPath = entsPaths (withSep d) es ++ [d])
      ∧ ((pyi_remove_temp_path d es).getLast? = some (Act.rmdir d))
      ∧ (∀ (pfx g : String) (l1 l2 : List Ent),
          removeEntries pfx (l1 ++ Ent.ghost g :: l2) = removeEntries pfx (l1 ++ l2))
      ∧ (∀ (pfx : String) (l1 l2 : List Ent),
          removeEntries pfx (l1 ++ Ent.dot :: l2) = removeEntries pfx (l1 ++ l2))
      ∧ (∀ (pfx : String) (l1 l2 : List Ent),
          removeEntries pfx (l1 ++ Ent.dotdot :: l2) = removeEntries pfx (l1 ++ l2)) := by
  intro d es
  refine ⟨?_, ?_, removeEntries_ghost_skip, removeEntries_dot_skip,
    removeEntries_dotdot_skip⟩
  · simp [pyi_remove_temp_path, removeEntries_paths, actPath]
  · simp [pyi_remove_temp_path]

/-- Unfolding `findSome?` on a cons whose head hits. -/
theorem findSome_cons_hit {α β : Type} (f : α → Option β) (a : α) (l : List α)
    (b : β) (h : f a = some b) : (a :: l).findSome? f = some b := by
  simp [List.findSome?, h]

/-- Unfolding `findSome?` on a cons whose head misses. -/
theorem findSome_cons_miss {α β : Type} (f : α → Option β) (a : α) (l : List α)
    (h : f a = none) : (a :: l).findSome? f = l.findSome? f := by
  simp [List.findSome?, h]

/-- `findSome?` over an empty list. -/
theorem findSome_nil_none {α β : Type} (f : α → Option β) :
    ([] : List α).findSome? f = none := rfl

/-- If no element hits, `findSome?` misses. -/
theorem findSome_all_miss {α β : Type} (f : α → Option β) :
    ∀ l : List α, (∀ a, a ∈ l → f a = none) → l.findSome? f = none := by
  intro l
  induction l with
  | nil => intro _; rfl
  | cons a r ih =>
    intro h
    rw [findSome_cons_miss f a r (h a (by simp))]
    exact ih fun x hx => h x (by simp [hx])

/-- The environment-probe loop is first-hit search over the values of the
set, nonempty probed variables. -/
theorem probeEnvList_eq (env : PEnv) (mk : String → Option String) :
    ∀ l : List String,
      probeEnvList env mk l
        = (l.filterMap (pyi_getenv env)).findSome? (pyi_test_temp_path mk) := by
  intro l
  induction l with
  | nil => simp [probeEnvList]
  | cons n r ih =>
    cases hg : pyi_getenv env n with
    | none => simp [probeEnvList, hg, ih]
    | some p =>
      cases ht : pyi_test_temp_path mk p with
      | none =>
        simp only [probeEnvList, hg, ht, ih, List.filterMap_cons]
        rw [findSome_cons_miss _ _ _ ht]
      | some b =>
        simp only [probeEnvList, hg, ht, List.filterMap_cons]
        rw [findSome_cons_hit _ _ _ _ ht]

/-- The fallback-directory probe loop is first-hit search over the fixed
directory list. -/
theorem probeDirList_eq (mk : String → Option String) :
    ∀ l : List String,
      probeDirList mk l = l.findSome? (pyi_test_temp_path mk) := by
  intro l
  induction l with
  | nil => simp [probeDirList]
  | cons d r ih =>
    cases ht : pyi_test_temp_path mk d with
    | none =>
      simp only [probeDirList, ht, ih]
      rw [findSome_cons_miss _ _ _ ht]
    | some b =>
      simp only [probeDirList, ht]
      rw [findSome_cons_hit _ _ _ _ ht]

/-- `findSome?` distributes over append as ordered first-hit search. -/
theorem findSome_append_split {α β : Type} (f : α → Option β) :
    ∀ l1 l2 : List α,
      (l1 ++ l2).findSome? f
        = match l1.findSome? f with
          | some b => some b
          | none => l2.findSome? f := by
  intro l1 l2
  induction l1 with
  | nil => simp [findSome_nil_none]
  | cons a r ih =>
    cases ha : f a with
    | none =>
      rw [List.cons_append, findSome_cons_miss _ _ _ ha,
        findSome_cons_miss _ _ _ ha, ih]
    | some b =>
      rw [List.cons_append, findSome_cons_hit _ _ _ _ ha,
        findSome_cons_hit _ _ _ _ ha]

/-- The Windows retry loop succeeds exactly when one of its `fuel`
attempts (starting at index `i`) succeeds. -/
theorem win32_attempt_loop_hit (tn : Nat → String) (ok : String → Bool) :
    ∀ (k i : Nat),
      (win32_attempt_loop tn ok i k).isSome = true
        ↔ ∃ j, j < k ∧ ok (tn (i + j)) = true := by
  intro k
  induction k with
  | zero =>
    intro i
    simp [win32_attempt_loop]
  | succ k ih =>
    intro i
    cases hok : ok (tn i) with
    | true =>
      have hred : win32_attempt_loop tn ok i (k + 1) = some (tn i) := by
        simp [win32_attempt_loop, hok]
      rw [hred]
      simp only [Option.isSome_some]
      constructor
      · intro _
        exact ⟨0, by omega, by simpa using hok⟩
      · intro _
        trivial
    | false =>
      have hred : win32_attempt_loop tn ok i (k + 1)
          = win32_attempt_loop tn ok (i + 1) k := by
        simp [win32_attempt_loop, hok]
      rw [hred, ih (i + 1)]
      constructor
      · rintro ⟨j, hj, hokj⟩
        exact ⟨j + 1, by omega, by rw [show i + (j + 1) = i + 1 + j by omega]; exact hokj⟩
      · rintro ⟨j, hj, hokj⟩
        match j with
        | 0 =>
          rw [Nat.add_zero] at hokj
          rw [hokj] at hok
          exact absurd hok (by simp)
        | Nat.succ j2 =>
          exact ⟨j2, by omega, by rw [show i + 1 + j2 = i + (j2 + 1) by omega]; exact hokj⟩

/-- C6: without a runtime-tmpdir override, `pyi_get_temp_path` is
first-hit search over the fixed ordered candidate list — the values of the
set environment variables `TMPDIR`, `TEMP`, `TMP`, then `/tmp`,
`/var/tmp`, `/usr/tmp` — with a single `mkdtemp` call per candidate;
exhausting every candidate yields failure, which `pyi_create_temp_path`
reports as fatal (`-1`); and on the Windows branch the
name-generation-and-mkdir step is retried at most 5 times: it succeeds
exactly when one of the 5 attempts succeeds. -/
theorem pyi_get_temp_path_probe_spec :
    ∀ (env : PEnv) (mk : String → Option String) (st : ArchiveStatus)
      (fullpath : String → String) (tn : PEnv → Nat → String) (ok : String → Bool),
      (pyi_get_temp_path env mk none
        = ((tmp_env_names.filterMap (pyi_getenv env)) ++ tmp_dir_names).findSome?
            (pyi_test_temp_path mk))
      ∧ ((∀ c, c ∈ (tmp_env_names.filterMap (pyi_getenv env)) ++ tmp_dir_names →
            pyi_test_temp_path mk c = none) →
          pyi_get_temp_path env mk none = none)
      ∧ (st.has_temp_directory = false →
          pyi_get_temp_path env mk (pyi_arch_get_option st "pyi-runtime-tmpdir") = none →
          pyi_create_temp_path env mk st = (-1, st))
      ∧ ((pyi_get_temp_path_w env fullpath tn ok none).1.isSome = true
          ↔ ∃ j, j < 5 ∧ ok (tn env j) = true) := by
  intro env mk st fullpath tn ok
  have hmain : pyi_get_temp_path env mk none
      = ((tmp_env_names.filterMap (pyi_getenv env)) ++ tmp_dir_names).findSome?
          (pyi_test_temp_path mk) := by
    simp only [pyi_get_temp_path]
    rw [findSome_append_split, ← probeEnvList_eq, ← probeDirList_eq]
    cases probeEnvList env mk tmp_env_names <;> rfl
  refine ⟨hmain, ?_, ?_, ?_⟩
  · intro hall
    rw [hmain]
    exact findSome_all_miss _ _ hall
  · intro hflag hnone
    simp [pyi_create_temp_path, hflag, hnone]
  · simp only [pyi_get_temp_path_w]
    rw [win32_attempt_loop_hit]
    constructor
    · rintro ⟨j, hj, hokj⟩
      exact ⟨j, hj, by simpa using hokj⟩
    · rintro ⟨j, hj, hokj⟩
      exact ⟨j, hj, by simpa using hokj⟩

/-- Environment used by the C6 witness: only `TMP` is set. -/
def wEnvT : PEnv := fun k => if k = "TMP" then some "/t" else none

/-- Archive status used by the C6/C7 witnesses: no temp directory yet, no
options. -/
def wStatus : ArchiveStatus :=
  { has_temp_directory := false, temppath := "", homepath := "",
    options := fun _ => none }

/-- Witness for C6: an environment with only `TMP` set, an `mkdtemp`
oracle that fails everywhere (every candidate is exhausted, and
`pyi_create_temp_path` reports `-1`), and a Windows mkdir oracle that
always fails so the 5 retries are exhausted. -/
theorem pyi_get_temp_path_probe_spec_w :
    (pyi_get_temp_path wEnvT (fun _ => none) none = none)
    ∧ (pyi_create_temp_path wEnvT (fun _ => none) wStatus = (-1, wStatus))
    ∧ ((pyi_get_temp_path_w wEnvT (fun s => s) (fun _ _ => "nm")
        (fun _ => false) none).1.isSome = false) := by
  have H := pyi_get_temp_path_probe_spec wEnvT (fun _ => none) wStatus
    (fun s => s) (fun _ _ => "nm") (fun _ => false)
  have h1 : pyi_get_temp_path wEnvT (fun _ => none) none = none :=
    H.2.1 (fun c _ => rfl)
  refine ⟨h1, H.2.2.1 rfl ?_, ?_⟩
  · simpa [pyi_arch_get_option, wStatus] using h1
  · have h2 := H.2.2.2
    simp only [show (∃ j, j < 5 ∧ (fun _ : String => false) "nm" = true) ↔ False by simp] at h2
    have h3 : ¬ ((pyi_get_temp_path_w wEnvT (fun s => s) (fun _ _ => "nm")
        (fun _ => false) none).1.isSome = true) :=
      fun hs => h2.mp hs
    simpa using h3

/-- C7: `pyi_create_temp_path` is idempotent with respect to
`has_temp_directory`: with the flag set it returns `0` and the unchanged
status without any filesystem interaction (the result is independent of
the environment and of the `mkdtemp` oracle); on a successful first call
it records the created path and sets the flag (so an immediately repeated
call is a no-op returning `0`); on failure it returns `-1` and leaves the
flag unset. -/
theorem pyi_create_temp_path_idempotent :
    ∀ (env env2 : PEnv) (mk mk2 : String → Option String) (st : ArchiveStatus),
      (st.has_temp_directory = true →
        pyi_create_temp_path env mk st = (0, st)
        ∧ pyi_create_temp_path env mk st = pyi_create_temp_path env2 mk2 st)
      ∧ (st.has_temp_directory = false →
          (∀ p, pyi_get_temp_path env mk (pyi_arch_get_option st "pyi-runtime-tmpdir") = some p →
            pyi_create_temp_path env mk st
              = (0, { st with temppath := p, has_temp_directory := true })
            ∧ pyi_create_temp_path env2 mk2 (pyi_create_temp_path env mk st).2
              = (0, (pyi_create_temp_path env mk st).2))
          ∧ (pyi_get_temp_path env mk (pyi_arch_get_option st "pyi-runtime-tmpdir") = none →
              pyi_create_temp_path env mk st = (-1, st)
              ∧ (pyi_create_temp_path env mk st).2.has_temp_directory = false)) := by
  intro env env2 mk mk2 st
  constructor
  · intro hflag
    constructor <;> simp [pyi_create_temp_path, hflag]
  · intro hflag
    constructor
    · intro p hp
      have h1 : pyi_create_temp_path env mk st
          = (0, { st with temppath := p, has_temp_directory := true }) := by
        simp [pyi_create_temp_path, hflag, hp]
      refine ⟨h1, ?_⟩
      rw [h1]
      simp [pyi_create_temp_path]
    · intro hp
      constructor <;> simp [pyi_create_temp_path, hflag, hp]

/-- `mkdtemp` oracle used by the C7 witness: always succeeds with a fixed
created name. -/
def wMk : String → Option String := fun _ => some "/tmp/_MEIok"

/-- Witness for C7: starting from an unset flag with an always-succeeding
`mkdtemp`, the first call returns `0` with the flag set and the created
path recorded, the repeated call is a no-op returning `0`, and with the
flag already set the result is oracle-independent. -/
theorem pyi_create_temp_path_idempotent_w :
    wStatus.has_temp_directory = false
    ∧ pyi_get_temp_path wEnvT wMk (pyi_arch_get_option wStatus "pyi-runtime-tmpdir")
        = some "/tmp/_MEIok"
    ∧ pyi_create_temp_path wEnvT wMk wStatus
        = (0, { wStatus with temppath := "/tmp/_MEIok", has_temp_directory := true })
    ∧ pyi_create_temp_path wEnvT wMk (pyi_create_temp_path wEnvT wMk wStatus).2
        = (0, (pyi_create_temp_path wEnvT wMk wStatus).2) := by
  have H := pyi_create_temp_path_idempotent wEnvT wEnvT wMk wMk wStatus
  have hget : pyi_get_temp_path wEnvT wMk (pyi_arch_get_option wStatus "pyi-runtime-tmpdir")
      = some "/tmp/_MEIok" := by
    simp [pyi_get_temp_path, pyi_arch_get_option, wStatus, probeEnvList,
      pyi_getenv, wEnvT, pyi_test_temp_path, wMk, tmp_env_names]
  have H2 := (H.2 rfl).1 "/tmp/_MEIok" hget
  exact ⟨rfl, hget, H2.1, H2.2⟩

/-- Pointwise effect of the handler-install loop over any signal list. -/
theorem install_foldl_eval (h : HandlerKind) :
    ∀ (l : List Nat) (d : Nat → HandlerKind) (s : Nat),
      (l.foldl
        (fun d signum =>
          if signum ≠ SIGCHLD ∧ signum ≠ SIGCLD then updateDisp d signum h else d)
        d) s
        = if s ∈ l ∧ s ≠ SIGCHLD then h else d s := by
  intro l
  induction l with
  | nil => intro d s; simp
  | cons a r ih =>
    intro d s
    rw [List.foldl_cons, ih]
    by_cases hmem : s ∈ r ∧ s ≠ SIGCHLD
    · simp [hmem, hmem.1, hmem.2]
    · rw [if_neg hmem]
      by_cases ha : a ≠ SIGCHLD ∧ a ≠ SIGCLD
      · rw [if_pos ha]
        by_cases hsa : s = a
        · subst hsa
          simp [updateDisp, ha.1]
        · simp only [updateDisp, if_neg hsa]
          rw [if_neg]
          intro hc
          rcases List.mem_cons.mp hc.1 with hc1 | hc1
          · exact hsa hc1
          · exact hmem ⟨hc1, hc.2⟩
      · rw [if_neg ha]
        have ha2 : a = SIGCHLD := by
          by_cases h1 : a = SIGCHLD
          · exact h1
          · exact absurd ⟨h1, by simpa [SIGCLD] using h1⟩ ha
        rw [if_neg]
        intro hc
        rcases List.mem_cons.mp hc.1 with hc1 | hc1
        · exact hc.2 (hc1.trans ha2)
        · exact hmem ⟨hc1, hc.2⟩

/-- Pointwise effect of the restore loop over any signal list. -/
theorem restore_foldl_eval :
    ∀ (l : List Nat) (d : Nat → HandlerKind) (s : Nat),
      (l.foldl (fun d signum => updateDisp d signum HandlerKind.dfl) d) s
        = if s ∈ l then HandlerKind.dfl else d s := by
  intro l
  induction l with
  | nil => intro d s; simp
  | cons a r ih =>
    intro d s
    rw [List.foldl_cons, ih]
    by_cases hmem : s ∈ r
    · simp [hmem]
    · rw [if_neg hmem]
      by_cases hsa : s = a
      · subst hsa
        simp [updateDisp]
      · simp only [updateDisp, if_neg hsa]
        rw [if_neg]
        intro hc
        rcases List.mem_cons.mp hc with hc | hc
        · exact hsa hc
        · exact hmem hc

/-- C8: during the wait, a handler is installed for every signal number in
`0..64` except the child-reaping signal `SIGCHLD`/`SIGCLD`, whose
disposition is untouched; the handler is selected once from the
`"pyi-bootloader-ignore-signals"` option: in Forward mode (option absent)
a received signal is relayed verbatim — same number — to the child's pid,
in Ignore mode (option present) it is swallowed with no `kill` issued;
after the wait every disposition in `0..64` is restored to the platform
default. -/
theorem signal_disposition_spec :
    ∀ (opts : String → Option String) (d : Nat → HandlerKind) (cpid s : Nat),
      (s < 65 → s ≠ SIGCHLD →
        installSignalHandlers
          (chooseHandler (opts "pyi-bootloader-ignore-signals").isSome) d s
          = chooseHandler (opts "pyi-bootloader-ignore-signals").isSome)
      ∧ (installSignalHandlers
          (chooseHandler (opts "pyi-bootloader-ignore-signals").isSome) d SIGCHLD
          = d SIGCHLD)
      ∧ ((opts "pyi-bootloader-ignore-signals").isSome = false →
          runHandler cpid (chooseHandler (opts "pyi-bootloader-ignore-signals").isSome) s
            = [(cpid, s)])
      ∧ ((opts "pyi-bootloader-ignore-signals").isSome = true →
          runHandler cpid (chooseHandler (opts "pyi-bootloader-ignore-signals").isSome) s
            = [])
      ∧ (s < 65 → restoreSignalHandlers d s = HandlerKind.dfl) := by
  intro opts d cpid s
  refine ⟨?_, ?_, ?_, ?_, ?_⟩
  · intro hlt hne
    rw [installSignalHandlers, install_foldl_eval]
    rw [if_pos ⟨List.mem_range.mpr hlt, hne⟩]
  · rw [installSignalHandlers, install_foldl_eval]
    rw [if_neg (by intro hc; exact hc.2 rfl)]
  · intro hmode
    simp [chooseHandler, hmode, runHandler, _signal_handler]
  · intro hmode
    simp [chooseHandler, hmode, runHandler, _ignoring_signal_handler]
  · intro hlt
    rw [restoreSignalHandlers, restore_foldl_eval]
    rw [if_pos (List.mem_range.mpr hlt)]

/-- Witness for C8: with the option absent (Forward mode), signal 2 gets
the forwarding handler which relays `(pid 42, signal 2)`; `SIGCHLD = 17`
keeps its prior disposition; the restore loop resets signal 2 to the
default. -/
theorem signal_disposition_spec_w :
    (2 < 65 ∧ 2 ≠ SIGCHLD ∧ ((fun _ : String => (none : Option String))
        "pyi-bootloader-ignore-signals").isSome = false)
    ∧ installSignalHandlers
        (chooseHandler ((fun _ : String => (none : Option String))
          "pyi-bootloader-ignore-signals").isSome)
        (fun _ => HandlerKind.dfl) 2 = HandlerKind.forwarding
    ∧ installSignalHandlers
        (chooseHandler ((fun _ : String => (none : Option String))
          "pyi-bootloader-ignore-signals").isSome)
        (fun _ => HandlerKind.dfl) SIGCHLD = HandlerKind.dfl
    ∧ runHandler 42 (chooseHandler ((fun _ : String => (none : Option String))
        "pyi-bootloader-ignore-signals").isSome) 2 = [(42, 2)]
    ∧ restoreSignalHandlers (fun _ => HandlerKind.ignoring) 2 = HandlerKind.dfl := by
  have H := signal_disposition_spec (fun _ => none) (fun _ => HandlerKind.dfl) 42 2
  have H2 := signal_disposition_spec (fun _ => none) (fun _ => HandlerKind.ignoring) 42 2
  refine ⟨⟨by omega, by decide, rfl⟩, ?_, ?_, H.2.2.1 rfl, H2.2.2.2.2 (by omega)⟩
  · have h1 := H.1 (by omega) (by decide)
    simpa [chooseHandler] using h1
  · exact H.2.1

/-- The argument-copy loop equals `List.filter` on the skip predicate. -/
theorem filter_argv_eq_filter :
    ∀ argv : List String,
      filter_argv argv = argv.filter (fun a => ! a.startsWith "-psn") := by
  intro argv
  induction argv with
  | nil => rfl
  | cons a r ih =>
    cases h : a.startsWith "-psn" with
    | true => simp [filter_argv, h, List.filter_cons, ih]
    | false => simp [filter_argv, h, List.filter_cons, ih]

/-- C9: the argument vector passed to the child is the incoming vector
with every argument beginning with the fixed `"-psn"` prefix dropped; all
other arguments are preserved, in their original relative order (the
result is a sublist of the input equal to filtering on the prefix
predicate). -/
theorem filter_argv_spec :
    ∀ argv : List String,
      filter_argv argv = argv.filter (fun a => ! a.startsWith "-psn")
      ∧ (filter_argv argv).Sublist argv
      ∧ (∀ a, a ∈ filter_argv argv ↔ (a ∈ argv ∧ a.startsWith "-psn" = false)) := by
  intro argv
  refine ⟨filter_argv_eq_filter argv, ?_, ?_⟩
  · rw [filter_argv_eq_filter argv]
    exact List.filter_sublist argv
  · intro a
    rw [filter_argv_eq_filter argv, List.mem_filter]
    simp

/-- C10: on the Windows branch, with no runtime-tmpdir override the
environment is returned untouched; with an override `r` the attempts run
under the environment whose `TMP` is the override's absolute path
`fullpath r`, and on every return path (the attempt oracle is
unconstrained, covering success and exhaustion alike) `TMP` is restored to
its prior value when that value was present and nonempty, is unset when it
was previously absent or empty, and no other variable is modified. -/
theorem win32_tmp_restore_spec :
    ∀ (env : PEnv) (fullpath : String → String) (tn : PEnv → Nat → String)
      (ok : String → Bool),
      ((pyi_get_temp_path_w env fullpath tn ok none).2 = env)
      ∧ (∀ r, (pyi_setenv env "TMP" (fullpath r)) "TMP" = some (fullpath r)
          ∧ (pyi_get_temp_path_w env fullpath tn ok (some r)).1
              = win32_attempt_loop (tn (pyi_setenv env "TMP" (fullpath r))) ok 0 5)
      ∧ (∀ r v, env "TMP" = some v → v ≠ "" →
          (pyi_get_temp_path_w env fullpath tn ok (some r)).2 "TMP" = some v)
      ∧ (∀ r, (env "TMP" = none ∨ env "TMP" = some "") →
          (pyi_get_temp_path_w env fullpath tn ok (some r)).2 "TMP" = none)
      ∧ (∀ r k, k ≠ "TMP" →
          (pyi_get_temp_path_w env fullpath tn ok (some r)).2 k = env k) := by
  intro env fullpath tn ok
  refine ⟨rfl, ?_, ?_, ?_, ?_⟩
  · intro r
    exact ⟨by simp [pyi_setenv], rfl⟩
  · intro r v hv hvne
    have hget : pyi_getenv env "TMP" = some v := by
      simp [pyi_getenv, hv, hvne]
    simp [pyi_get_temp_path_w, hget, restoreTMP, pyi_setenv]
  · intro r hv
    have hget : pyi_getenv env "TMP" = none := by
      rcases hv with hv | hv <;> simp [pyi_getenv, hv]
    simp [pyi_get_temp_path_w, hget, restoreTMP, pyi_unsetenv]
  · intro r k hk
    cases hget : pyi_getenv env "TMP" with
    | none => simp [pyi_get_temp_path_w, hget, restoreTMP, pyi_unsetenv, pyi_setenv, hk]
    | some v => simp [pyi_get_temp_path_w, hget, restoreTMP, pyi_setenv, hk]

/-- Witness for C10: with prior `TMP = "/t"` (present and nonempty) and an
override, `TMP` is restored to `"/t"` after the call, and an unrelated
variable `X` is untouched. -/
theorem win32_tmp_restore_spec_w :
    wEnvT "TMP" = some "/t" ∧ ("/t" : String) ≠ ""
    ∧ (pyi_get_temp_path_w wEnvT (fun s => s) (fun _ _ => "nm")
        (fun _ => true) (some "ovr")).2 "TMP" = some "/t"
    ∧ (pyi_get_temp_path_w wEnvT (fun s => s) (fun _ _ => "nm")
        (fun _ => true) (some "ovr")).2 "X" = wEnvT "X" := by
  have H := win32_tmp_restore_spec wEnvT (fun s => s) (fun _ _ => "nm") (fun _ => true)
  exact ⟨by simp [wEnvT], by decide,
    H.2.2.1 "ovr" "/t" (by simp [wEnvT]) (by decide),
    H.2.2.2.2 "ovr" "X" (by decide)⟩

end PyiUtils
